import Mathlib

/-!
Shallow embedding of the ingestion/structuring/merge core of `plottr.py`
(`dictToDataFrames`, `combineDataFrames`, `DataWindow.addData`,
`DataReceiver.loop`), with theorems checking the specification's claims.

Scalar values (axis coordinates and data values) are modelled as `Int`;
the program never computes with them, it only stores, compares and sorts
them, so any linearly ordered scalar type is faithful.  Python dicts are
modelled as ordered association lists (insertion order, distinct keys in
practice); Python exceptions are modelled with `Except`.
-/

namespace Plottr

/-- Entry of a raw message (`dataDict[n]` in the source): a `values` list,
and  optionally a list of axis names (`'axes' not in dataDict[n]` is the
`none` case, which `dictToDataFrames` skips). -/
structure Descriptor where
  values : List Int
  axes : Option (List String)
deriving DecidableEq, Repr

/-- Raw message body: ordered mapping array name → descriptor. -/
abbrev RawMessage := List (String × Descriptor)

/-- Python dict lookup on an association list: first matching key. -/
def lookupEntry {α : Type} (m : List (String × α)) (k : String) : Option α :=
  (m.find? (fun e => e.1 == k)).map (fun e => e.2)

/-- Exceptions the modelled code can raise: `KeyError` from a missing dict
key, `ValueError` from pandas construction, `NotImplementedError` from the
update branch of `DataWindow.addData`. -/
inductive PyError where
  | keyError (k : String)
  | valueError
  | notImplementedError
deriving DecidableEq, Repr

/-- Length of Python `zip(*ls)` for nonempty `ls`: the minimum length. -/
def minLen : List (List Int) → Nat
  | [] => 0
  | l :: rest => rest.foldl (fun acc l2 => min acc l2.length) l.length

/-- Python `list(zip(*ls))`: positional tuples, truncated to the shortest
input list; `zip()` of no lists yields no tuples. -/
def zipAll (ls : List (List Int)) : List (List Int) :=
  if ls.isEmpty then []
  else (List.range (minLen ls)).map (fun i => ls.map (fun l => l.getD i 0))

/-- Model of a single-column pandas DataFrame with a MultiIndex, as built
by `dictToDataFrames`: the column name, the index level names (`axes`),
the index tuples in row order, and the column values in row order. -/
structure DataFrame where
  name : String
  axes : List String
  index : List (List Int)
  values : List Int
deriving DecidableEq, Repr

/-- Looking up `dataDict[a]['values']` for an axis name `a`: `KeyError`
when the message has no entry named `a`. -/
def axisValues (msg : RawMessage) (a : String) : Except PyError (List Int) :=
  match lookupEntry msg a with
  | some d => Except.ok d.values
  | none => Except.error (PyError.keyError a)

/-- Evaluation of the list comprehension
`[(a, dataDict[a]['values']) for a in dataDict[n]['axes']]` (values part):
the axis value lists in reference order, failing with the `KeyError` of
the first missing axis name. -/
def collectAxes (msg : RawMessage) : List String → Except PyError (List (List Int))
  | [] => Except.ok []
  | a :: rest =>
    match axisValues msg a with
    | Except.error e => Except.error e
    | Except.ok v =>
      match collectAxes msg rest with
      | Except.error e => Except.error e
      | Except.ok vs => Except.ok (v :: vs)

/-- One iteration body of `dictToDataFrames` for a data-array entry
`(n, d)` with `d.axes = some axs`: look up all referenced axis value
lists (`KeyError` on a missing one, in order), zip them positionally
(truncating, like Python `zip`), then build the DataFrame.
`MultiIndex.from_arrays` raises `ValueError` for an empty axis-name list,
and `pd.DataFrame(vals, mi)` raises `ValueError` when the value count
differs from the number of index tuples. -/
def buildFrame (msg : RawMessage) (n : String) (d : Descriptor)
    (axs : List String) : Except PyError DataFrame :=
  match collectAxes msg axs with
  | Except.error e => Except.error e
  | Except.ok coordLists =>
    if axs.isEmpty then
      Except.error PyError.valueError
    else if d.values.length = (zipAll coordLists).length then
      Except.ok
        { name := n, axes := axs, index := zipAll coordLists,
          values := d.values }
    else
      Except.error PyError.valueError

/-- Loop of `dictToDataFrames` over the entries of `msg` (the first
argument keeps the whole message available for axis lookups): entries
without an `axes` key are skipped, the rest produce DataFrames in order;
the first exception aborts the whole call, so no partial list escapes. -/
def framesOf (msg : RawMessage) :
    List (String × Descriptor) → Except PyError (List DataFrame)
  | [] => Except.ok []
  | (n, d) :: rest =>
    match d.axes with
    | none => framesOf msg rest
    | some axs =>
      match buildFrame msg n d axs with
      | Except.error e => Except.error e
      | Except.ok df =>
        match framesOf msg rest with
        | Except.error e => Except.error e
        | Except.ok dfs => Except.ok (df :: dfs)

/-- Model of `dictToDataFrames`. -/
def dictToDataFrames (msg : RawMessage) : Except PyError (List DataFrame) :=
  framesOf msg msg

/-- Lexicographic comparison of coordinate tuples, the order pandas
`sort_index` uses on a MultiIndex (ascending over the level order). -/
def lexLe : List Int → List Int → Bool
  | [], _ => true
  | _ :: _, [] => false
  | a :: aTl, b :: bTl =>
    if a < b then true else if b < a then false else lexLe aTl bTl

/-- Row order used by `sort_index`: compare rows by their index tuple. -/
def rowLe (p q : List Int × Int) : Prop := lexLe p.1 q.1 = true

instance : DecidableRel rowLe := fun p q => by
  unfold rowLe
  infer_instance

/-- Rows of a DataFrame: index tuples zipped with values. -/
def rowsOf (df : DataFrame) : List (List Int × Int) := df.index.zip df.values

/-- Model of `combineDataFrames`: `df1.append(df2)` concatenates the rows
of both frames (duplicate index tuples are retained), and `sort_index`
then sorts rows by index tuple, ascending and stable (`np.lexsort`). -/
def combineDataFrames (df1 df2 : DataFrame) (sortIndex : Bool) : DataFrame :=
  let rs := rowsOf df1 ++ rowsOf df2
  let rs2 := if sortIndex then List.insertionSort rowLe rs else rs
  { name := df1.name, axes := df1.axes,
    index := rs2.map (fun p => p.1), values := rs2.map (fun p => p.2) }

/-- Decoded wire payload as `DataReceiver.loop` and `DataWindow.addData`
see it: the optional `id`, the `update` flag (`.get('update', False)`),
and the optional `datasets` mapping. -/
structure PayloadDict where
  hasId : Option String
  update : Bool
  datasets : Option RawMessage
deriving DecidableEq, Repr

/-- One entry of `DataWindow.dataStructure`: the point count (`df.size`)
and, per axis in order, the number of distinct level values (`len(lvls)`
over `df.index.levels`). -/
structure StructInfo where
  nValues : Nat
  axes : List (String × Nat)
deriving DecidableEq, Repr

/-- Mutable state of a `DataWindow`: `self.data` and `self.dataStructure`
(both Python dicts keyed by array name). -/
structure WindowState where
  data : List (String × DataFrame)
  dataStructure : List (String × StructInfo)
deriving DecidableEq, Repr

/-- Python dict assignment `m[k] = v`: replace in place when the key
exists, otherwise append. -/
def setEntry {α : Type} (m : List (String × α)) (k : String) (v : α) :
    List (String × α) :=
  if m.any (fun e => e.1 == k) then
    m.map (fun e => if e.1 == k then (k, v) else e)
  else m ++ [(k, v)]

/-- Sizes of the MultiIndex levels of `df`: for each axis position, the
number of distinct coordinate values observed at that position. -/
def levelSizes (df : DataFrame) : List Nat :=
  (List.range df.axes.length).map
    (fun i => ((df.index.map (fun t => t.getD i 0)).dedup).length)

/-- Metadata entry `DataWindow.addData` records for one DataFrame. -/
def structOf (df : DataFrame) : StructInfo :=
  { nValues := df.values.length, axes := df.axes.zip (levelSizes df) }

/-- Loop body of the non-update branch of `addData`: record metadata for
the frame and store the frame under its array name. -/
def insertFrame (st : WindowState) (df : DataFrame) : WindowState :=
  { data := setEntry st.data df.name df,
    dataStructure := setEntry st.dataStructure df.name (structOf df) }

/-- Model of `DataWindow.addData`: missing or empty `datasets` is a no-op
(Python falsiness); otherwise the message is structured (exceptions
propagate, leaving the state unchanged), then `update = true` raises
`NotImplementedError`, and `update = false` rebuilds `dataStructure` from
scratch while upserting the frames into the existing `data` dict. -/
def addData (st : WindowState) (msg : PayloadDict) :
    Except PyError WindowState :=
  match msg.datasets with
  | none => Except.ok st
  | some dd =>
    if dd.isEmpty then Except.ok st
    else
      match dictToDataFrames dd with
      | Except.error e => Except.error e
      | Except.ok dfs =>
        if msg.update then Except.error PyError.notImplementedError
        else Except.ok (dfs.foldl insertFrame { st with dataStructure := [] })

/-- Events the receiver emits: `sendInfo` log lines and `sendData`
payloads. -/
inductive Event where
  | info (s : String)
  | dataAvailable (p : PayloadDict)
deriving DecidableEq, Repr

/-- One incoming transport payload: either `recv_json` decodes it, or it
is malformed and `recv_json` raises. -/
inductive Wire where
  | malformed
  | decoded (p : PayloadDict)
deriving DecidableEq, Repr

/-- One iteration of the `DataReceiver.loop` body on a received payload:
`none` means an uncaught exception escapes the loop (the JSON decode
error of `recv_json` is not caught); `some evts` means the iteration
emitted `evts` and the loop continues.  Only `KeyError` on `data['id']`
is caught. -/
def loopStep : Wire → Option (List Event)
  | Wire.malformed => none
  | Wire.decoded p =>
    match p.hasId with
    | none => some [Event.info "Received invalid data (no ID)"]
    | some i =>
      some [Event.info ("Received data for dataset: " ++ i),
            Event.dataAvailable p]

/-- Outcome of running the receive loop over a finite schedule of
payloads: either the loop was still alive when `running` was cleared
(`stopped`), or an uncaught exception terminated it early (`crashed`).
Either way it carries the events emitted so far. -/
inductive LoopResult where
  | stopped (events : List Event)
  | crashed (events : List Event)
deriving DecidableEq, Repr

/-- Run the `while self.running` loop over a finite list of incoming
payloads (the list ending models `stop()` being observed). -/
def loopRun : List Wire → LoopResult
  | [] => LoopResult.stopped []
  | w :: ws =>
    match loopStep w with
    | none => LoopResult.crashed []
    | some evts =>
      match loopRun ws with
      | LoopResult.stopped es => LoopResult.stopped (evts ++ es)
      | LoopResult.crashed es => LoopResult.crashed (evts ++ es)

/-- Model of `DataReceiver.loop`: one initial `Listening...` info event,
then the receive loop. -/
def receiverLoop (msgs : List Wire) : LoopResult :=
  match loopRun msgs with
  | LoopResult.stopped es => LoopResult.stopped (Event.info "Listening..." :: es)
  | LoopResult.crashed es => LoopResult.crashed (Event.info "Listening..." :: es)

/-- Events emitted by a schedule all of whose steps survive. -/
def eventsOf (ws : List Wire) : List Event :=
  ws.flatMap (fun w => (loopStep w).getD [])

/-- Cartesian product of a list of value lists, in lexicographic
generation order; used to state the full-Cartesian-coordinate hypothesis
of the round-trip claim. -/
def cartesianProd : List (List Int) → List (List Int)
  | [] => [[]]
  | l :: ls => l.flatMap (fun a => (cartesianProd ls).map (fun t => a :: t))

/-! Basic properties of the lexicographic tuple order. -/

theorem lexLe_cons_iff (a b : Int) (aTl bTl : List Int) :
    lexLe (a :: aTl) (b :: bTl) = true ↔
      a < b ∨ (a = b ∧ lexLe aTl bTl = true) := by
  simp only [lexLe]
  split_ifs with h1 h2
  · simp [h1]
  · have hne : a ≠ b := by omega
    simp [h1, hne]
  · have hab : a = b := le_antisymm (not_lt.mp h2) (not_lt.mp h1)
    simp [hab, lt_irrefl]

theorem lexLe_total : ∀ (a b : List Int), lexLe a b = true ∨ lexLe b a = true
  | [], _ => Or.inl rfl
  | _ :: _, [] => Or.inr rfl
  | a :: aTl, b :: bTl => by
    rcases lt_trichotomy a b with h | h | h
    · exact Or.inl ((lexLe_cons_iff a b aTl bTl).mpr (Or.inl h))
    · cases lexLe_total aTl bTl with
      | inl ht => exact Or.inl ((lexLe_cons_iff a b aTl bTl).mpr (Or.inr ⟨h, ht⟩))
      | inr ht =>
        exact Or.inr ((lexLe_cons_iff b a bTl aTl).mpr (Or.inr ⟨h.symm, ht⟩))
    · exact Or.inr ((lexLe_cons_iff b a bTl aTl).mpr (Or.inl h))

theorem lexLe_trans : ∀ (a b c : List Int),
    lexLe a b = true → lexLe b c = true → lexLe a c = true
  | [], _, _, _, _ => rfl
  | _ :: _, [], _, h, _ => by simp [lexLe] at h
  | _ :: _, _ :: _, [], _, h => by simp [lexLe] at h
  | a :: aTl, b :: bTl, c :: cTl, h1, h2 => by
    rcases (lexLe_cons_iff a b aTl bTl).mp h1 with hab | ⟨hab, htl1⟩ <;>
      rcases (lexLe_cons_iff b c bTl cTl).mp h2 with hbc | ⟨hbc, htl2⟩
    · exact (lexLe_cons_iff a c aTl cTl).mpr (Or.inl (by omega))
    · exact (lexLe_cons_iff a c aTl cTl).mpr (Or.inl (by omega))
    · exact (lexLe_cons_iff a c aTl cTl).mpr (Or.inl (by omega))
    · exact (lexLe_cons_iff a c aTl cTl).mpr
        (Or.inr ⟨by omega, lexLe_trans aTl bTl cTl htl1 htl2⟩)

instance : IsTotal (List Int × Int) rowLe :=
  ⟨fun p q => lexLe_total p.1 q.1⟩

instance : IsTrans (List Int × Int) rowLe :=
  ⟨fun p q r h1 h2 => lexLe_trans p.1 q.1 r.1 h1 h2⟩

/-! Row bookkeeping for DataFrames and for `combineDataFrames`. -/

theorem rowsOf_length (df : DataFrame) (h : df.index.length = df.values.length) :
    (rowsOf df).length = df.values.length := by
  simp [rowsOf, List.length_zip, h]

theorem rowsOf_map_fst (df : DataFrame) (h : df.index.length = df.values.length) :
    (rowsOf df).map Prod.fst = df.index :=
  List.map_fst_zip _ _ (le_of_eq h)

theorem zip_fst_snd {α β : Type} (l : List (α × β)) :
    (l.map (fun p => p.1)).zip (l.map (fun p => p.2)) = l := by
  simp [List.zip_map']

theorem combine_rows (df1 df2 : DataFrame) (b : Bool) :
    rowsOf (combineDataFrames df1 df2 b) =
      if b then List.insertionSort rowLe (rowsOf df1 ++ rowsOf df2)
      else rowsOf df1 ++ rowsOf df2 := by
  cases b
  · exact zip_fst_snd (rowsOf df1 ++ rowsOf df2)
  · exact zip_fst_snd (List.insertionSort rowLe (rowsOf df1 ++ rowsOf df2))

theorem combine_perm (df1 df2 : DataFrame) (b : Bool) :
    (rowsOf (combineDataFrames df1 df2 b)).Perm (rowsOf df1 ++ rowsOf df2) := by
  rw [combine_rows]
  cases b
  · simp
  · simpa using List.perm_insertionSort rowLe (rowsOf df1 ++ rowsOf df2)

theorem combine_wellformed (df1 df2 : DataFrame) (b : Bool) :
    (combineDataFrames df1 df2 b).index.length =
      (combineDataFrames df1 df2 b).values.length := by
  cases b <;> simp [combineDataFrames]

/-- Existing dataset of the last-write-wins example: one point (1,2)→5. -/
def dfEx1 : DataFrame := ⟨"d", ["x", "y"], [[1, 2]], [5]⟩

/-- Incoming dataset of the last-write-wins example: one point (1,2)→7. -/
def dfEx2 : DataFrame := ⟨"d", ["x", "y"], [[1, 2]], [7]⟩

/-- C1, counterexample.  Merging the one-point dataset (1,2)→5 with the
one-point dataset (1,2)→7 does NOT overwrite: `df1.append(df2)` keeps
both rows, so the merged dataset has the coordinate tuple (1,2) twice
(values 5 and 7) and point count 2, not the claimed single entry
(1,2)→7 with point count 1. -/
theorem claim_C1_counterexample :
    (combineDataFrames dfEx1 dfEx2 true).index = [[1, 2], [1, 2]] ∧
    (combineDataFrames dfEx1 dfEx2 true).values = [5, 7] ∧
    (combineDataFrames dfEx1 dfEx2 true).values.length ≠ 1 := by
  decide

/-- C1, amended.  For well-formed inputs (index and value columns of equal
length), `combineDataFrames` appends the incoming rows to the existing
rows: the rows of the result are a permutation of the concatenation of
the rows of the two inputs (duplicate coordinate tuples are retained, no
overwriting), and the point count of the result is the sum of the two
point counts (not unchanged). -/
theorem claim_C1_amended (df1 df2 : DataFrame) (b : Bool)
    (h1 : df1.index.length = df1.values.length)
    (h2 : df2.index.length = df2.values.length) :
    (rowsOf (combineDataFrames df1 df2 b)).Perm (rowsOf df1 ++ rowsOf df2) ∧
    (combineDataFrames df1 df2 b).values.length =
      df1.values.length + df2.values.length := by
  refine ⟨combine_perm df1 df2 b, ?_⟩
  cases b <;>
    simp [combineDataFrames, rowsOf, List.length_insertionSort,
      List.length_zip, h1, h2]

/-- Witness for `claim_C1_amended` at the concrete example frames. -/
theorem claim_C1_witness :
    (rowsOf (combineDataFrames dfEx1 dfEx2 true)).Perm (rowsOf dfEx1 ++ rowsOf dfEx2) ∧
    (combineDataFrames dfEx1 dfEx2 true).values.length =
      dfEx1.values.length + dfEx2.values.length :=
  claim_C1_amended dfEx1 dfEx2 true (by decide) (by decide)

/-- C8, confirmed.  With the default `sortIndex = true`, the index of the
result of `combineDataFrames` is sorted ascending in the lexicographic
tuple order over the declared axis order, whatever the row order of the
two inputs was (`sort_index` sorts the appended rows). -/
theorem claim_C8_sorted (df1 df2 : DataFrame) :
    List.Pairwise (fun s t => lexLe s t = true)
      ((combineDataFrames df1 df2 true).index) := by
  have h : List.Sorted rowLe
      (List.insertionSort rowLe (rowsOf df1 ++ rowsOf df2)) :=
    List.sorted_insertionSort rowLe (rowsOf df1 ++ rowsOf df2)
  have h2 : List.Pairwise (fun s t => lexLe s t = true)
      ((List.insertionSort rowLe (rowsOf df1 ++ rowsOf df2)).map Prod.fst) :=
    h.map Prod.fst (fun p q hpq => hpq)
  simpa [combineDataFrames, rowsOf] using h2

/-- Raw message whose only data array references an axis with repeated
coordinate values, producing a duplicated coordinate tuple. -/
def msgDup : RawMessage := [("x", ⟨[1, 1], none⟩), ("d", ⟨[5, 6], some ["x"]⟩)]

/-- Structured output of `msgDup`: tuple (1) appears twice. -/
def dfDup : DataFrame := ⟨"d", ["x"], [[1], [1]], [5, 6]⟩

/-- C9, counterexample.  Structuring a raw message whose axis values
repeat yields a structured dataset whose coordinate tuples are NOT
unique: `dictToDataFrames` zips positionally and never deduplicates. -/
theorem claim_C9_counterexample :
    dictToDataFrames msgDup = Except.ok [dfDup] ∧ ¬ dfDup.index.Nodup :=
  ⟨rfl, by decide⟩

/-- C9, amended.  Coordinate-tuple uniqueness is not an invariant of the
pipeline: neither operation deduplicates.  For well-formed inputs, the
index of the output of `combineDataFrames` is a permutation of the two
input indexes concatenated, so every tuple keeps the sum of its input
multiplicities (duplicates survive, merging duplicates creates copies);
structuring itself can already emit duplicated tuples. -/
theorem claim_C9_amended (df1 df2 : DataFrame) (b : Bool)
    (h1 : df1.index.length = df1.values.length)
    (h2 : df2.index.length = df2.values.length) :
    ((combineDataFrames df1 df2 b).index).Perm (df1.index ++ df2.index) := by
  have hw := combine_wellformed df1 df2 b
  have hfst := rowsOf_map_fst (combineDataFrames df1 df2 b) hw
  have hperm : ((rowsOf (combineDataFrames df1 df2 b)).map Prod.fst).Perm
      ((rowsOf df1 ++ rowsOf df2).map Prod.fst) :=
    (combine_perm df1 df2 b).map Prod.fst
  rw [List.map_append, rowsOf_map_fst df1 h1, rowsOf_map_fst df2 h2] at hperm
  rw [← hfst]
  exact hperm

/-- Witness for `claim_C9_amended` at the concrete example frames. -/
theorem claim_C9_witness :
    ((combineDataFrames dfEx1 dfEx2 true).index).Perm
      (dfEx1.index ++ dfEx2.index) :=
  claim_C9_amended dfEx1 dfEx2 true (by decide) (by decide)

/-! Lengths of zipped coordinate tuples. -/

theorem zipAll_length (ls : List (List Int)) : (zipAll ls).length = minLen ls := by
  unfold zipAll
  split_ifs with h
  · cases ls with
    | nil => rfl
    | cons l rest => simp at h
  · simp

theorem foldlMin_const (N : Nat) : ∀ (rest : List (List Int)) (acc : Nat),
    acc = N → (∀ l ∈ rest, l.length = N) →
    rest.foldl (fun acc2 l2 => min acc2 l2.length) acc = N
  | [], acc, hacc, _ => hacc
  | l :: rest, acc, hacc, h => by
    simp only [List.foldl_cons]
    refine foldlMin_const N rest (min acc l.length) ?_ ?_
    · rw [hacc, h l (by simp), min_self]
    · intro l2 hl2
      exact h l2 (by simp [hl2])

theorem minLen_const (N : Nat) (ls : List (List Int)) (hne : ls ≠ [])
    (h : ∀ l ∈ ls, l.length = N) : minLen ls = N := by
  cases ls with
  | nil => exact absurd rfl hne
  | cons l rest =>
    exact foldlMin_const N rest l.length (h l (by simp))
      (fun l2 hl2 => h l2 (by simp [hl2]))

theorem collectAxes_ok_length (msg : RawMessage) : ∀ (axs : List String)
    (cs : List (List Int)), collectAxes msg axs = Except.ok cs →
    cs.length = axs.length
  | [], cs, h => by
    simp only [collectAxes] at h
    cases h
    rfl
  | a :: rest, cs, h => by
    simp only [collectAxes] at h
    cases hv : axisValues msg a with
    | error e => rw [hv] at h; cases h
    | ok v =>
      rw [hv] at h
      cases hvs : collectAxes msg rest with
      | error e => rw [hvs] at h; cases h
      | ok vs =>
        rw [hvs] at h
        cases h
        simp [collectAxes_ok_length msg rest vs hvs]

/-! Counting and distinctness of the full Cartesian coordinate set. -/

theorem flatMap_const_length {α : Type} (f : α → List (List Int)) (k : Nat)
    (h : ∀ a, (f a).length = k) :
    ∀ (l : List α), (l.flatMap f).length = l.length * k
  | [] => by simp
  | a :: t => by
    rw [List.flatMap_cons, List.length_append, flatMap_const_length f k h t,
      h a, List.length_cons, Nat.succ_mul]
    omega

theorem cartesianProd_length : ∀ (ls : List (List Int)),
    (cartesianProd ls).length = (ls.map List.length).prod
  | [] => rfl
  | l :: ls => by
    rw [cartesianProd,
      flatMap_const_length (fun a => (cartesianProd ls).map (fun t => a :: t))
        (cartesianProd ls).length (fun a => by simp) l,
      cartesianProd_length ls]
    simp

theorem cartesianProd_nodup : ∀ (ls : List (List Int)),
    (∀ l ∈ ls, l.Nodup) → (cartesianProd ls).Nodup
  | [], _ => by simp [cartesianProd]
  | l :: ls, h => by
    rw [cartesianProd]
    apply List.nodup_flatMap.mpr
    constructor
    · intro a _
      refine (cartesianProd_nodup ls (fun l2 hl2 => h l2 (by simp [hl2]))).map ?_
      intro t1 t2 ht
      simpa using ht
    · have hl : l.Nodup := h l (by simp)
      refine hl.imp ?_
      intro a b hab
      intro x hx1 hx2
      simp only [List.mem_map] at hx1 hx2
      obtain ⟨t1, _, rfl⟩ := hx1
      obtain ⟨t2, _, he⟩ := hx2
      injection he with h1 h2
      exact hab h1.symm

/-! Behaviour of the structuring loop. -/

theorem framesOf_of_filter_nil (msg : RawMessage) :
    ∀ (l : List (String × Descriptor)),
    l.filter (fun e => e.2.axes.isSome) = [] → framesOf msg l = Except.ok []
  | [], _ => rfl
  | (n, d) :: rest, h => by
    cases hd : d.axes with
    | none =>
      simp only [framesOf, hd]
      apply framesOf_of_filter_nil msg rest
      simpa [List.filter_cons, hd] using h
    | some axs =>
      exfalso
      simp [List.filter_cons, hd] at h

theorem framesOf_single (msg : RawMessage) (n : String) (d : Descriptor)
    (axs : List String) (df : DataFrame)
    (haxes : d.axes = some axs)
    (hbuild : buildFrame msg n d axs = Except.ok df) :
    ∀ (l : List (String × Descriptor)),
    l.filter (fun e => e.2.axes.isSome) = [(n, d)] →
    framesOf msg l = Except.ok [df]
  | [], h => by simp at h
  | (m, dm) :: rest, h => by
    cases he : dm.axes with
    | none =>
      simp only [framesOf, he]
      apply framesOf_single msg n d axs df haxes hbuild rest
      simpa [List.filter_cons, he] using h
    | some axs2 =>
      have h2 : (m, dm) = (n, d) ∧
          rest.filter (fun e2 => e2.2.axes.isSome) = [] := by
        simpa [List.filter_cons, he] using h
      obtain ⟨h3, h4⟩ := h2
      injection h3 with hm hdm
      subst hm
      subst hdm
      rw [haxes] at he
      cases he
      simp only [framesOf, haxes]
      rw [hbuild, framesOf_of_filter_nil msg rest h4]

theorem buildFrame_ok (msg : RawMessage) (n : String) (d : Descriptor)
    (axs : List String) (coordLists : List (List Int))
    (hcoll : collectAxes msg axs = Except.ok coordLists)
    (hne : axs ≠ [])
    (hlen : ∀ l ∈ coordLists, l.length = d.values.length) :
    buildFrame msg n d axs =
      Except.ok ⟨n, axs, zipAll coordLists, d.values⟩ := by
  have hcne : coordLists ≠ [] := by
    intro hc
    apply hne
    have hl := collectAxes_ok_length msg axs coordLists hcoll
    subst hc
    simpa using hl.symm
  have hlen2 : d.values.length = (zipAll coordLists).length := by
    rw [zipAll_length, minLen_const d.values.length coordLists hcne hlen]
  have hne2 : ¬ (axs.isEmpty = true) := by simpa [List.isEmpty_iff] using hne
  simp [buildFrame, hcoll, hne2, hlen2]

/-- C2, confirmed.  For a raw message with exactly one data array `(n, d)`
referencing axes `axs` (all present, value lists `coordLists`, all of the
value-sequence length), whose positional coordinate tuples form the full
Cartesian set over the distinct values of each axis (expressed as a
permutation of `cartesianProd` of the deduplicated axis lists),
structuring yields exactly one DataFrame whose rows are the positional
zip of the tuples with the flat value sequence, and whose tuples are
pairwise distinct and exactly `s1 * ... * sn` in number, where `si` is
the count of distinct values of axis `i`. -/
theorem claim_C2_roundtrip (msg : RawMessage) (n : String) (d : Descriptor)
    (axs : List String) (coordLists : List (List Int))
    (hfilter : msg.filter (fun e => e.2.axes.isSome) = [(n, d)])
    (haxes : d.axes = some axs)
    (hcoll : collectAxes msg axs = Except.ok coordLists)
    (hne : axs ≠ [])
    (hlen : ∀ l ∈ coordLists, l.length = d.values.length)
    (hcart : (zipAll coordLists).Perm
      (cartesianProd (coordLists.map List.dedup))) :
    dictToDataFrames msg =
      Except.ok [⟨n, axs, zipAll coordLists, d.values⟩] ∧
    (zipAll coordLists).Nodup ∧
    (zipAll coordLists).length =
      (coordLists.map (fun l => l.dedup.length)).prod := by
  have hbuild := buildFrame_ok msg n d axs coordLists hcoll hne hlen
  refine ⟨framesOf_single msg n d axs _ haxes hbuild msg hfilter, ?_, ?_⟩
  · refine hcart.nodup_iff.mpr (cartesianProd_nodup _ ?_)
    intro l hl
    simp only [List.mem_map] at hl
    obtain ⟨l2, _, rfl⟩ := hl
    exact l2.nodup_dedup
  · rw [hcart.length_eq, cartesianProd_length, List.map_map]
    rfl

/-- Raw message with a 2×2 full Cartesian coordinate set. -/
def msgC2 : RawMessage :=
  [("x", ⟨[1, 1, 2, 2], none⟩), ("y", ⟨[3, 4, 3, 4], none⟩),
   ("d", ⟨[10, 20, 30, 40], some ["x", "y"]⟩)]

/-- Data-array descriptor of `msgC2`. -/
def dC2 : Descriptor := ⟨[10, 20, 30, 40], some ["x", "y"]⟩

/-- Witness for `claim_C2_roundtrip` on the concrete 2×2 message. -/
theorem claim_C2_witness :
    dictToDataFrames msgC2 =
      Except.ok [⟨"d", ["x", "y"], zipAll [[1, 1, 2, 2], [3, 4, 3, 4]],
        [10, 20, 30, 40]⟩] ∧
    (zipAll [[1, 1, 2, 2], [3, 4, 3, 4]]).Nodup ∧
    (zipAll [[1, 1, 2, 2], [3, 4, 3, 4]]).length =
      ([[1, 1, 2, 2], [3, 4, 3, 4]].map (fun l => l.dedup.length)).prod :=
  claim_C2_roundtrip msgC2 "d" dC2 ["x", "y"] [[1, 1, 2, 2], [3, 4, 3, 4]]
    (by decide) rfl rfl (by decide) (by decide) (by decide)

/-- Raw message whose data array references axes of unequal lengths
(3 and 2) with a value sequence of length 2. -/
def msgTrunc : RawMessage :=
  [("x", ⟨[1, 2, 3], none⟩), ("y", ⟨[4, 5], none⟩),
   ("d", ⟨[10, 20], some ["x", "y"]⟩)]

/-- C3, counterexample.  A data array whose referenced axis arrays have
unequal lengths (3 and 2) does NOT make structuring fail: Python `zip`
silently truncates to the shortest axis, and since the value count (2)
matches the truncated tuple count, `dictToDataFrames` succeeds, dropping
the third coordinate of axis `x`.  This refutes the claimed error
condition "referenced axis arrays have unequal lengths". -/
theorem claim_C3_counterexample :
    dictToDataFrames msgTrunc =
      Except.ok [⟨"d", ["x", "y"], [[1, 4], [2, 5]], [10, 20]⟩] := rfl

theorem collectAxes_error_of_missing (msg : RawMessage) :
    ∀ (axs : List String) (a : String), a ∈ axs → lookupEntry msg a = none →
    ∃ e, collectAxes msg axs = Except.error e
  | [], a, ha, _ => absurd ha (by simp)
  | b :: rest, a, ha, hmiss => by
    cases hv : axisValues msg b with
    | error e => exact ⟨e, by simp [collectAxes, hv]⟩
    | ok v =>
      have hba : a ∈ rest := by
        rcases List.mem_cons.mp ha with h | h
        · exfalso
          subst h
          simp [axisValues, hmiss] at hv
        · exact h
      obtain ⟨e, he⟩ := collectAxes_error_of_missing msg rest a hba hmiss
      exact ⟨e, by simp [collectAxes, hv, he]⟩

theorem buildFrame_error (msg : RawMessage) (n : String) (d : Descriptor)
    (axs : List String)
    (hbad : (∃ a ∈ axs, lookupEntry msg a = none) ∨
      (∃ cs, collectAxes msg axs = Except.ok cs ∧
        d.values.length ≠ minLen cs)) :
    ∃ e, buildFrame msg n d axs = Except.error e := by
  rcases hbad with ⟨a, ha, hmiss⟩ | ⟨cs, hcs, hlen⟩
  · obtain ⟨e, he⟩ := collectAxes_error_of_missing msg axs a ha hmiss
    exact ⟨e, by simp [buildFrame, he]⟩
  · by_cases hemp : axs.isEmpty
    · exact ⟨PyError.valueError, by simp [buildFrame, hcs, hemp]⟩
    · have hne : ¬ (d.values.length = (zipAll cs).length) := by
        rw [zipAll_length]
        exact hlen
      exact ⟨PyError.valueError, by simp [buildFrame, hcs, hemp, hne]⟩

theorem framesOf_error (msg : RawMessage) (n : String) (d : Descriptor)
    (axs : List String) (herr : ∃ e, buildFrame msg n d axs = Except.error e)
    (haxes : d.axes = some axs) :
    ∀ (l : List (String × Descriptor)), (n, d) ∈ l →
    ∃ e, framesOf msg l = Except.error e
  | [], hmem => absurd hmem (by simp)
  | (m, dm) :: rest, hmem => by
    rcases List.mem_cons.mp hmem with heq | hmem2
    · injection heq with h1 h2
      subst h1
      subst h2
      obtain ⟨e, he⟩ := herr
      exact ⟨e, by simp [framesOf, haxes, he]⟩
    · cases hdm : dm.axes with
      | none =>
        obtain ⟨e, he⟩ := framesOf_error msg n d axs herr haxes rest hmem2
        exact ⟨e, by simp [framesOf, hdm, he]⟩
      | some axs2 =>
        cases hb : buildFrame msg m dm axs2 with
        | error e2 => exact ⟨e2, by simp [framesOf, hdm, hb]⟩
        | ok df =>
          obtain ⟨e, he⟩ := framesOf_error msg n d axs herr haxes rest hmem2
          exact ⟨e, by simp [framesOf, hdm, hb, he]⟩

/-- C3, amended.  Structuring fails — with a Python exception, modelled as
an `Except.error` carrying no dataset at all, so no partial dataset is
emitted — when a data array references an axis name absent from the
message (`KeyError`) or when its value count differs from the truncated
tuple count, i.e. the minimum of the referenced axis lengths
(`ValueError`).  Referenced axis arrays of unequal length are, by
themselves, not an error: the tuples are silently truncated to the
shortest axis, as `claim_C3_counterexample` shows. -/
theorem claim_C3_amended (msg : RawMessage) (n : String) (d : Descriptor)
    (axs : List String)
    (hmem : (n, d) ∈ msg) (haxes : d.axes = some axs)
    (hbad : (∃ a ∈ axs, lookupEntry msg a = none) ∨
      (∃ cs, collectAxes msg axs = Except.ok cs ∧
        d.values.length ≠ minLen cs)) :
    ∃ e, dictToDataFrames msg = Except.error e :=
  framesOf_error msg n d axs (buildFrame_error msg n d axs hbad) haxes msg hmem

/-- Raw message whose data array references the absent axis name `z`. -/
def msgMissing : RawMessage :=
  [("x", ⟨[1, 2], none⟩), ("d", ⟨[10, 20], some ["x", "z"]⟩)]

/-- Witness for `claim_C3_amended` on the message with a missing axis. -/
theorem claim_C3_witness :
    ∃ e, dictToDataFrames msgMissing = Except.error e :=
  claim_C3_amended msgMissing "d" ⟨[10, 20], some ["x", "z"]⟩ ["x", "z"]
    (by decide) rfl (Or.inl ⟨"z", by decide, by decide⟩)

/-! Dict-update lemmas for `setEntry` and the `addData` fold. -/

theorem lookupEntry_cons {α : Type} (e : String × α) (m : List (String × α))
    (k : String) :
    lookupEntry (e :: m) k =
      if e.1 == k then some e.2 else lookupEntry m k := by
  cases hp : (e.1 == k) with
  | true => simp [lookupEntry, List.find?_cons, hp]
  | false => simp [lookupEntry, List.find?_cons, hp]

theorem bool_eq_false {b : Bool} (h : ¬ b = true) : b = false := by
  cases b
  · rfl
  · exact absurd rfl h

theorem lookup_map_set {α : Type} (k k2 : String) (v : α) (hne : k2 ≠ k) :
    ∀ (m : List (String × α)),
    lookupEntry (m.map (fun e => if e.1 == k then (k, v) else e)) k2 =
      lookupEntry m k2
  | [] => rfl
  | e :: rest => by
    simp only [List.map_cons]
    rw [lookupEntry_cons, lookupEntry_cons]
    by_cases he : (e.1 == k) = true
    · have hek : e.1 = k := by simpa using he
      have h1 : (k == k2) = false := by simpa using (Ne.symm hne)
      rw [if_pos he]
      simp only [hek, h1, Bool.false_eq_true, if_false]
      exact lookup_map_set k k2 v hne rest
    · rw [if_neg he]
      by_cases hp : (e.1 == k2) = true
      · simp [hp]
      · have hp2 : (e.1 == k2) = false := bool_eq_false hp
        simp only [hp2, Bool.false_eq_true, if_false]
        exact lookup_map_set k k2 v hne rest

theorem lookup_append_single {α : Type} (k k2 : String) (v : α)
    (hne : k2 ≠ k) : ∀ (m : List (String × α)),
    lookupEntry (m ++ [(k, v)]) k2 = lookupEntry m k2
  | [] => by
    have h1 : (k == k2) = false := by simpa using (Ne.symm hne)
    simp [lookupEntry, List.find?_cons, h1]
  | e :: rest => by
    simp only [List.cons_append]
    rw [lookupEntry_cons, lookupEntry_cons]
    by_cases hp : (e.1 == k2) = true
    · simp [hp]
    · have hp2 : (e.1 == k2) = false := bool_eq_false hp
      simp only [hp2, Bool.false_eq_true, if_false]
      exact lookup_append_single k k2 v hne rest

theorem lookup_map_set_self {α : Type} (k : String) (v : α) :
    ∀ (m : List (String × α)), m.any (fun e => e.1 == k) = true →
    lookupEntry (m.map (fun e => if e.1 == k then (k, v) else e)) k = some v
  | [], h => by simp at h
  | e :: rest, h => by
    simp only [List.map_cons]
    rw [lookupEntry_cons]
    by_cases he : (e.1 == k) = true
    · rw [if_pos he]
      simp
    · have he2 : (e.1 == k) = false := bool_eq_false he
      have h2 : rest.any (fun e2 => e2.1 == k) = true := by
        simpa [List.any_cons, he2] using h
      rw [if_neg he]
      simp only [he2, Bool.false_eq_true, if_false]
      exact lookup_map_set_self k v rest h2

theorem lookup_append_single_self {α : Type} (k : String) (v : α) :
    ∀ (m : List (String × α)), m.any (fun e => e.1 == k) = false →
    lookupEntry (m ++ [(k, v)]) k = some v
  | [], _ => by simp [lookupEntry, List.find?_cons]
  | e :: rest, h => by
    have he : (e.1 == k) = false := by
      cases hx : (e.1 == k) with
      | true => simp [List.any_cons, hx] at h
      | false => rfl
    have h2 : rest.any (fun e2 => e2.1 == k) = false := by
      simpa [List.any_cons, he] using h
    simp only [List.cons_append]
    rw [lookupEntry_cons]
    simp only [he, Bool.false_eq_true, if_false]
    exact lookup_append_single_self k v rest h2

theorem lookup_setEntry_self {α : Type} (m : List (String × α)) (k : String)
    (v : α) : lookupEntry (setEntry m k v) k = some v := by
  unfold setEntry
  split_ifs with h
  · exact lookup_map_set_self k v m h
  · exact lookup_append_single_self k v m (bool_eq_false h)

theorem lookup_setEntry_other {α : Type} (m : List (String × α))
    (k k2 : String) (v : α) (hne : k2 ≠ k) :
    lookupEntry (setEntry m k v) k2 = lookupEntry m k2 := by
  unfold setEntry
  split_ifs with h
  · exact lookup_map_set k k2 v hne m
  · exact lookup_append_single k k2 v hne m

theorem foldl_insertFrame_not_mem : ∀ (dfs : List DataFrame)
    (st : WindowState) (m : String), m ∉ dfs.map DataFrame.name →
    lookupEntry (dfs.foldl insertFrame st).data m = lookupEntry st.data m ∧
    lookupEntry (dfs.foldl insertFrame st).dataStructure m =
      lookupEntry st.dataStructure m
  | [], st, m, _ => ⟨rfl, rfl⟩
  | df :: rest, st, m, h => by
    have h2 : m ≠ df.name ∧ m ∉ rest.map DataFrame.name := by
      simpa [not_or] using h
    have ih := foldl_insertFrame_not_mem rest (insertFrame st df) m h2.2
    simp only [List.foldl_cons]
    refine ⟨ih.1.trans ?_, ih.2.trans ?_⟩
    · exact lookup_setEntry_other st.data df.name m df h2.1
    · exact lookup_setEntry_other st.dataStructure df.name m (structOf df) h2.1

theorem foldl_insertFrame_mem : ∀ (dfs : List DataFrame) (st : WindowState)
    (df : DataFrame), df ∈ dfs → (dfs.map DataFrame.name).Nodup →
    lookupEntry (dfs.foldl insertFrame st).data df.name = some df ∧
    lookupEntry (dfs.foldl insertFrame st).dataStructure df.name =
      some (structOf df)
  | [], _, _, h, _ => absurd h (by simp)
  | df2 :: rest, st, df, h, hnd => by
    have hnd2 : df2.name ∉ rest.map DataFrame.name ∧
        (rest.map DataFrame.name).Nodup := by
      simpa [List.nodup_cons] using hnd
    rcases List.mem_cons.mp h with heq | hmem
    · subst heq
      have hni : df.name ∉ rest.map DataFrame.name := hnd2.1
      have hstep := foldl_insertFrame_not_mem rest (insertFrame st df)
        df.name hni
      simp only [List.foldl_cons]
      refine ⟨hstep.1.trans ?_, hstep.2.trans ?_⟩
      · exact lookup_setEntry_self st.data df.name df
      · exact lookup_setEntry_self st.dataStructure df.name (structOf df)
    · exact foldl_insertFrame_mem rest (insertFrame st df2) df hmem hnd2.2

theorem addData_ok (st : WindowState) (msg : PayloadDict) (dd : RawMessage)
    (dfs : List DataFrame)
    (hds : msg.datasets = some dd) (hne : dd ≠ [])
    (hok : dictToDataFrames dd = Except.ok dfs)
    (hupd : msg.update = false) :
    addData st msg =
      Except.ok (dfs.foldl insertFrame { st with dataStructure := [] }) := by
  have hemp : ¬ (dd.isEmpty = true) := by simpa [List.isEmpty_iff] using hne
  simp [addData, hds, hemp, hok, hupd]

/-- Empty window state (a fresh `DataWindow`). -/
def stEmpty : WindowState := ⟨[], []⟩

/-- First non-update message: one data array named `a`. -/
def msgFirst : PayloadDict :=
  ⟨some "A", false, some [("x", ⟨[1], none⟩), ("a", ⟨[5], some ["x"]⟩)]⟩

/-- Second non-update message: one data array named `b`, no entry `a`. -/
def msgSecond : PayloadDict :=
  ⟨some "A", false, some [("x", ⟨[2], none⟩), ("b", ⟨[6], some ["x"]⟩)]⟩

/-- C5, counterexample.  Applying `msgFirst` then `msgSecond` (both with
`update = false`, different contents) does NOT leave only the second
message content: `addData` resets `dataStructure` but never clears
`self.data`, so the DataFrame stored under `a` by the first message is
still present after the second — even though `msgSecond.datasets` has no
entry `a`. -/
theorem claim_C5_counterexample :
    (addData stEmpty msgFirst).bind (fun s => addData s msgSecond) =
      Except.ok ⟨
        [("a", ⟨"a", ["x"], [[1]], [5]⟩), ("b", ⟨"b", ["x"], [[2]], [6]⟩)],
        [("b", ⟨1, [("x", 1)]⟩)]⟩ ∧
    lookupEntry [("x", Descriptor.mk [2] none),
      ("b", Descriptor.mk [6] (some ["x"]))] "a" = none :=
  ⟨rfl, rfl⟩

/-- C5, amended.  A second non-update message rebuilds the structure
metadata from scratch (array names absent from it have no
`dataStructure` entry) and overwrites `self.data` only per array name:
each structured frame of the second message is stored under its name,
but `data` entries under names the second message does not produce
persist unchanged, so the replacement is not total. -/
theorem claim_C5_amended (st : WindowState) (msg : PayloadDict)
    (dd : RawMessage) (dfs : List DataFrame)
    (hds : msg.datasets = some dd) (hne : dd ≠ [])
    (hok : dictToDataFrames dd = Except.ok dfs)
    (hupd : msg.update = false)
    (hnd : (dfs.map DataFrame.name).Nodup) :
    ∃ st2, addData st msg = Except.ok st2 ∧
      (∀ df ∈ dfs, lookupEntry st2.data df.name = some df ∧
        lookupEntry st2.dataStructure df.name = some (structOf df)) ∧
      (∀ m, m ∉ dfs.map DataFrame.name →
        lookupEntry st2.dataStructure m = none ∧
        lookupEntry st2.data m = lookupEntry st.data m) := by
  refine ⟨dfs.foldl insertFrame { st with dataStructure := [] },
    addData_ok st msg dd dfs hds hne hok hupd, ?_, ?_⟩
  · intro df hdf
    exact foldl_insertFrame_mem dfs _ df hdf hnd
  · intro m hm
    have h := foldl_insertFrame_not_mem dfs
      { st with dataStructure := [] } m hm
    exact ⟨h.2.trans rfl, h.1⟩

/-- Window state already holding a frame under array name `a`. -/
def stPrev : WindowState :=
  ⟨[("a", ⟨"a", ["x"], [[1]], [5]⟩)], [("a", ⟨1, [("x", 1)]⟩)]⟩

/-- Witness for `claim_C5_amended`: `msgSecond` applied to `stPrev`. -/
theorem claim_C5_witness :
    ∃ st2, addData stPrev msgSecond = Except.ok st2 ∧
      (∀ df ∈ [DataFrame.mk "b" ["x"] [[2]] [6]],
        lookupEntry st2.data df.name = some df ∧
        lookupEntry st2.dataStructure df.name = some (structOf df)) ∧
      (∀ m, m ∉ [DataFrame.mk "b" ["x"] [[2]] [6]].map DataFrame.name →
        lookupEntry st2.dataStructure m = none ∧
        lookupEntry st2.data m = lookupEntry stPrev.data m) :=
  claim_C5_amended stPrev msgSecond
    [("x", ⟨[2], none⟩), ("b", ⟨[6], some ["x"]⟩)]
    [DataFrame.mk "b" ["x"] [[2]] [6]] rfl (by decide) rfl rfl (by decide)

/-! Frame names come from message entries; needed for claims C4 and C10. -/

theorem buildFrame_ok_name (msg : RawMessage) (n : String) (d : Descriptor)
    (axs : List String) (df : DataFrame)
    (h : buildFrame msg n d axs = Except.ok df) : df.name = n := by
  unfold buildFrame at h
  cases hc : collectAxes msg axs with
  | error e => rw [hc] at h; cases h
  | ok cs =>
    simp only [hc] at h
    by_cases h1 : axs.isEmpty = true
    · rw [if_pos h1] at h
      cases h
    · rw [if_neg h1] at h
      by_cases h2 : d.values.length = (zipAll cs).length
      · rw [if_pos h2] at h
        cases h
        rfl
      · rw [if_neg h2] at h
        cases h

theorem framesOf_name_mem (msg : RawMessage) :
    ∀ (l : List (String × Descriptor)) (dfs : List DataFrame),
    framesOf msg l = Except.ok dfs → ∀ df ∈ dfs, df.name ∈ l.map Prod.fst
  | [], dfs, h, df, hdf => by
    cases h
    simp at hdf
  | (m, dm) :: rest, dfs, h, df, hdf => by
    cases hd : dm.axes with
    | none =>
      simp only [framesOf, hd] at h
      have hx := framesOf_name_mem msg rest dfs h df hdf
      simp [hx]
    | some axs =>
      simp only [framesOf, hd] at h
      cases hb : buildFrame msg m dm axs with
      | error e => rw [hb] at h; cases h
      | ok df2 =>
        rw [hb] at h
        cases hr : framesOf msg rest with
        | error e => rw [hr] at h; cases h
        | ok dfs2 =>
          rw [hr] at h
          cases h
          rcases List.mem_cons.mp hdf with heq | hmem
          · subst heq
            simp [buildFrame_ok_name msg m dm axs df hb]
          · have hx := framesOf_name_mem msg rest dfs2 hr df hmem
            simp [hx]

theorem lookup_none_not_mem {α : Type} :
    ∀ (m : List (String × α)) (k : String),
    k ∈ m.map Prod.fst → lookupEntry m k ≠ none
  | [], k, h => by simp at h
  | e :: rest, k, h => by
    rw [lookupEntry_cons]
    by_cases he : (e.1 == k) = true
    · simp [he]
    · have he2 : (e.1 == k) = false := bool_eq_false he
      rw [List.map_cons] at h
      have hk : k ∈ rest.map Prod.fst := by
        rcases List.mem_cons.mp h with heq | hm
        · exfalso
          apply he
          simp [heq]
        · exact hm
      simp only [he2, Bool.false_eq_true, if_false]
      exact lookup_none_not_mem rest k hk

/-- C10, confirmed.  A non-update message whose `datasets` mapping has no
entry named `X` leaves the previously stored DataFrame `self.data[X]`
untouched (the old array persists in the data map), while the rebuilt
`dataStructure` metadata has no entry for `X` any more. -/
theorem claim_C10_persist (st : WindowState) (msg : PayloadDict)
    (dd : RawMessage) (dfs : List DataFrame) (X : String) (dfX : DataFrame)
    (hds : msg.datasets = some dd) (hne : dd ≠ [])
    (hok : dictToDataFrames dd = Except.ok dfs)
    (hupd : msg.update = false)
    (hX : lookupEntry dd X = none)
    (hdata : lookupEntry st.data X = some dfX) :
    ∃ st2, addData st msg = Except.ok st2 ∧
      lookupEntry st2.data X = some dfX ∧
      lookupEntry st2.dataStructure X = none := by
  have hXnames : X ∉ dfs.map DataFrame.name := by
    intro hmem
    simp only [List.mem_map] at hmem
    obtain ⟨df, hdf, hname⟩ := hmem
    have h2 := framesOf_name_mem dd dd dfs hok df hdf
    rw [hname] at h2
    exact lookup_none_not_mem dd X h2 hX
  have h := foldl_insertFrame_not_mem dfs
    { st with dataStructure := [] } X hXnames
  exact ⟨dfs.foldl insertFrame { st with dataStructure := [] },
    addData_ok st msg dd dfs hds hne hok hupd,
    h.1.trans hdata, h.2.trans rfl⟩

/-- Witness for `claim_C10_persist`: `msgSecond` (arrays `x`, `b`) applied
to `stPrev`, which stores a frame under the absent name `a`. -/
theorem claim_C10_witness :
    ∃ st2, addData stPrev msgSecond = Except.ok st2 ∧
      lookupEntry st2.data "a" = some (DataFrame.mk "a" ["x"] [[1]] [5]) ∧
      lookupEntry st2.dataStructure "a" = none :=
  claim_C10_persist stPrev msgSecond
    [("x", ⟨[2], none⟩), ("b", ⟨[6], some ["x"]⟩)]
    [DataFrame.mk "b" ["x"] [[2]] [6]] "a" (DataFrame.mk "a" ["x"] [[1]] [5])
    rfl (by decide) rfl rfl (by decide) rfl

/-- Update-flagged message carrying one well-formed data array. -/
def msgUpd : PayloadDict :=
  ⟨some "A", true, some [("x", ⟨[1], none⟩), ("a", ⟨[5], some ["x"]⟩)]⟩

/-- C4, counterexample.  Applying a well-formed message with the update
flag set does not merge and does not create: `DataWindow.addData`
reaches `raise NotImplementedError`.  The same message with the flag
clear creates the dataset, so the error comes from the update branch
alone. -/
theorem claim_C4_counterexample :
    addData stEmpty msgUpd = Except.error PyError.notImplementedError ∧
    addData stEmpty ⟨some "A", false, msgUpd.datasets⟩ =
      Except.ok ⟨[("a", ⟨"a", ["x"], [[1]], [5]⟩)], [("a", ⟨1, [("x", 1)]⟩)]⟩ :=
  ⟨rfl, rfl⟩

/-- C4, amended.  For every window state and every message with
`update = true` and a nonempty `datasets` mapping that structures
successfully, `addData` raises `NotImplementedError`: the merge path is
unimplemented, no merge or create happens and the state is not
replaced (the exception propagates). -/
theorem claim_C4_amended (st : WindowState) (msg : PayloadDict)
    (dd : RawMessage) (dfs : List DataFrame)
    (hds : msg.datasets = some dd) (hne : dd ≠ [])
    (hok : dictToDataFrames dd = Except.ok dfs)
    (hupd : msg.update = true) :
    addData st msg = Except.error PyError.notImplementedError := by
  have hemp : ¬ (dd.isEmpty = true) := by simpa [List.isEmpty_iff] using hne
  simp [addData, hds, hemp, hok, hupd]

/-- Witness for `claim_C4_amended` at the concrete update message. -/
theorem claim_C4_witness :
    addData stPrev msgUpd = Except.error PyError.notImplementedError :=
  claim_C4_amended stPrev msgUpd
    [("x", ⟨[1], none⟩), ("a", ⟨[5], some ["x"]⟩)]
    [DataFrame.mk "a" ["x"] [[1]] [5]] rfl (by decide) rfl rfl

/-! Behaviour of the receive loop. -/

theorem loopRun_no_malformed : ∀ (msgs : List Wire), Wire.malformed ∉ msgs →
    loopRun msgs = LoopResult.stopped (eventsOf msgs)
  | [], _ => rfl
  | w :: ws, h => by
    have hw : w ≠ Wire.malformed := by
      intro he
      exact h (by simp [he])
    have hws : Wire.malformed ∉ ws := fun hm => h (by simp [hm])
    cases w with
    | malformed => exact absurd rfl hw
    | decoded p =>
      have ih := loopRun_no_malformed ws hws
      cases hp : p.hasId with
      | none => simp [loopRun, loopStep, hp, ih, eventsOf]
      | some i => simp [loopRun, loopStep, hp, ih, eventsOf]

theorem loopRun_crash : ∀ (pre post : List Wire), Wire.malformed ∉ pre →
    loopRun (pre ++ Wire.malformed :: post) =
      LoopResult.crashed (eventsOf pre)
  | [], post, _ => by simp [loopRun, loopStep, eventsOf]
  | w :: pre, post, h => by
    have hw : w ≠ Wire.malformed := by
      intro he
      exact h (by simp [he])
    have hpre : Wire.malformed ∉ pre := fun hm => h (by simp [hm])
    have ih := loopRun_crash pre post hpre
    cases w with
    | malformed => exact absurd rfl hw
    | decoded p =>
      cases hp : p.hasId with
      | none => simp [loopRun, loopStep, hp, ih, eventsOf]
      | some i => simp [loopRun, loopStep, hp, ih, eventsOf]

/-- Decodable payload carrying an identifier. -/
def pGood : PayloadDict := ⟨some "A", false, none⟩

/-- C6, counterexample.  A malformed (undecodable) payload does NOT
produce a diagnostic event and does NOT let the loop continue: the JSON
decode error of `recv_json` is uncaught, so the loop terminates at once
(`crashed`), the only event being the initial banner, and the following
well-formed message is never processed — refuting "emits a diagnostic
event, drops the message, and continues looping". -/
theorem claim_C6_counterexample :
    receiverLoop [Wire.malformed, Wire.decoded pGood] =
      LoopResult.crashed [Event.info "Listening..."] := rfl

/-- C6, amended.  The receive loop survives any number of decodable
payloads (including ones lacking `id`) and terminates normally when
`stop()` is observed; but the first payload that fails decoding raises
an uncaught exception that terminates the loop immediately, with no
diagnostic event for it and with all later payloads unprocessed.  Only
schedules without malformed payloads end by explicit stop. -/
theorem claim_C6_amended (msgs : List Wire) :
    (Wire.malformed ∉ msgs →
      receiverLoop msgs =
        LoopResult.stopped (Event.info "Listening..." :: eventsOf msgs)) ∧
    (∀ pre post, msgs = pre ++ Wire.malformed :: post →
      Wire.malformed ∉ pre →
      receiverLoop msgs =
        LoopResult.crashed (Event.info "Listening..." :: eventsOf pre)) := by
  constructor
  · intro h
    simp [receiverLoop, loopRun_no_malformed msgs h]
  · intro pre post hsplit hpre
    subst hsplit
    simp [receiverLoop, loopRun_crash pre post hpre]

/-- Witness for `claim_C6_amended`: a clean schedule stops, a schedule
with a malformed payload after one good payload crashes. -/
theorem claim_C6_witness :
    receiverLoop [Wire.decoded pGood] =
      LoopResult.stopped
        (Event.info "Listening..." :: eventsOf [Wire.decoded pGood]) ∧
    receiverLoop [Wire.decoded pGood, Wire.malformed] =
      LoopResult.crashed
        (Event.info "Listening..." :: eventsOf [Wire.decoded pGood]) :=
  ⟨(claim_C6_amended [Wire.decoded pGood]).1 (by decide),
   (claim_C6_amended [Wire.decoded pGood, Wire.malformed]).2
     [Wire.decoded pGood] [] rfl (by decide)⟩

/-- C7, confirmed.  For a decoded payload: without `id` the loop body
emits exactly the diagnostic info event and no data event, and returns
`some` (the loop continues); with `id = i` it emits the info event
naming `i` and the data-available event carrying the raw payload
unchanged (which contains the identifier), and the loop continues. -/
theorem claim_C7_loop (p : PayloadDict) :
    (p.hasId = none →
      loopStep (Wire.decoded p) =
        some [Event.info "Received invalid data (no ID)"]) ∧
    (∀ i, p.hasId = some i →
      loopStep (Wire.decoded p) =
        some [Event.info ("Received data for dataset: " ++ i),
          Event.dataAvailable p]) := by
  constructor
  · intro h
    simp [loopStep, h]
  · intro i h
    simp [loopStep, h]

/-- Witness for `claim_C7_loop` at an id-less and an id-bearing payload. -/
theorem claim_C7_witness :
    loopStep (Wire.decoded ⟨none, false, none⟩) =
      some [Event.info "Received invalid data (no ID)"] ∧
    loopStep (Wire.decoded pGood) =
      some [Event.info ("Received data for dataset: " ++ "A"),
        Event.dataAvailable pGood] :=
  ⟨(claim_C7_loop ⟨none, false, none⟩).1 rfl,
   (claim_C7_loop pGood).2 "A" rfl⟩

end Plottr
